import Mathlib

/-!
Verification of the TCLab PI-controller script (`TCLab_Demo_PI.py`).

The numeric state of the controller is modelled with exact rationals (ℚ):
Python-float values become rationals, so all arithmetic identities below are
exact identities of the algorithm, not statements about IEEE rounding.

Interactions with the external `tclab` device driver are modelled by a
device oracle (`Device`) saying, for each call site in the script, whether
the call succeeds and what a sensor read returns.  A run produces a trace of
successful device operations (`Ev`), the list of completed samples, and the
error reported by the catch-all handler, if any.
-/

set_option allowUnsafeReducibility true in
attribute [semireducible] Rat.mul Rat.inv Rat.add Rat.sub

namespace TCLab

/-- `np.clip(x, lo, hi)` — numpy clamps as `min (max x lo) hi`. -/
def npclip (x lo hi : ℚ) : ℚ := min (max x lo) hi

/-- `OP_bias = 0.0` (line 18): steady-state heater bias. -/
def OP_bias : ℚ := 0

/-- `delta_t = 2.0` (line 20): the control interval in seconds. -/
def delta_t : ℚ := 2

/-- Python `int(x)` on a float/rational: truncation toward zero. -/
def pyInt (q : ℚ) : ℤ :=
  if q < 0 then -((((-q).num.toNat / (-q).den : ℕ) : ℤ)) else ((q.num.toNat / q.den : ℕ) : ℤ)

/-- `n = int(duration / delta_t)` (line 23): number of control cycles.
For positive durations Python `int` truncation agrees with `floor`. -/
def numCycles (duration : ℚ) : ℕ := (pyInt (duration / delta_t)).toNat

/-- One iteration of the control-law body (lines 89–111): error, P-term,
tentative integral accumulation, I-term, raw output, clamp, and the
anti-windup correction `integral_error -= error * delta_t` applied when the
clamped output is not strictly inside (0, 100).  Returns the commanded
output `Q1[i]` and the integral error left for the next cycle. -/
def piStep (Kp Ki T_sp ie T1 : ℚ) : ℚ × ℚ :=
  let error := T_sp - T1
  let P_term := Kp * error
  let ie1 := ie + error * delta_t
  let I_term := Ki * ie1
  let OP := OP_bias + P_term + I_term
  let Q1 := npclip OP 0 100
  if 0 < Q1 ∧ Q1 < 100 then (Q1, ie1) else (Q1, ie1 - error * delta_t)

/-- A successful device operation, in the order the script performs them. -/
inductive Ev
  | connect
  | q1 (p : ℚ)
  | q2 (p : ℚ)
  | led (p : ℚ)
  | readT1
  | close
deriving DecidableEq, Repr

/-- One completed record of the logged arrays `t`, `T1`, `T_sp_array`, `Q1`
at an index the loop fully filled in (lines 82–104). -/
structure Sample where
  t : ℚ
  measured : ℚ
  setpoint : ℚ
  output : ℚ
deriving DecidableEq, Repr

/-- Oracle for the external `tclab` driver: one field per call site of the
script, saying whether that call raises, and what reads return.
`temps i` is the loop read `lab.T1` of cycle `i` (`none` = the read raises);
`loopQ1Ok i` is the in-loop actuation `lab.Q1(Q1[i])` of cycle `i`. -/
structure Device where
  connectOk : Bool
  startQ1Ok : Bool
  startQ2Ok : Bool
  startLedOk : Bool
  initT : Option ℚ
  temps : ℕ → Option ℚ
  loopQ1Ok : ℕ → Bool
  drainQ1Ok : Bool
  closeOk : Bool

/-- The exception raised inside the `try` block, by raising call site. -/
inductive DevErr
  | connectFail
  | startQ1Fail
  | startQ2Fail
  | startLedFail
  | initReadFail
  | readFail (i : ℕ)
  | actuateFail (i : ℕ)
deriving DecidableEq, Repr

/-- The main control loop (lines 80–126) run from cycle `i` with `fuel`
cycles left and integral error `ie`.  Each cycle reads `lab.T1` (a failing
read aborts the loop with nothing logged for that cycle), computes the
clamped output via `piStep` — at which point the arrays hold a complete row
for the cycle — then issues `lab.Q1` (a failing actuation aborts after the
row is logged).  Returns the device events, the completed rows, and the
exception that ended the loop, if any. -/
def controlLoop (dev : Device) (T_sp Kp Ki : ℚ) :
    ℕ → ℕ → ℚ → List Ev × List Sample × Option DevErr
  | 0, _, _ => ([], [], none)
  | fuel + 1, i, ie =>
    match dev.temps i with
    | none => ([], [], some (DevErr.readFail i))
    | some T1 =>
      let s := piStep Kp Ki T_sp ie T1
      let row : Sample := ⟨i * delta_t, T1, T_sp, s.1⟩
      if dev.loopQ1Ok i then
        let rest := controlLoop dev T_sp Kp Ki fuel (i + 1) s.2
        (Ev.readT1 :: Ev.q1 s.1 :: rest.1, row :: rest.2.1, rest.2.2)
      else ([Ev.readT1], [row], some (DevErr.actuateFail i))

/-- The body of the `try` block (lines 59–130): connect, the startup
commands `lab.Q1(0)`, `lab.Q2(0)`, `lab.LED(100)`, the initial temperature
read, then the main loop.  Any raising call aborts the body with the
corresponding exception. -/
def tryBody (dev : Device) (duration T_sp Kp Ki : ℚ) :
    List Ev × List Sample × Option DevErr :=
  if dev.connectOk then
    if dev.startQ1Ok then
      if dev.startQ2Ok then
        if dev.startLedOk then
          match dev.initT with
          | none => ([Ev.connect, Ev.q1 0, Ev.q2 0, Ev.led 100], [],
              some DevErr.initReadFail)
          | some _ =>
            let rest := controlLoop dev T_sp Kp Ki (numCycles duration) 0 0
            ([Ev.connect, Ev.q1 0, Ev.q2 0, Ev.led 100, Ev.readT1] ++ rest.1,
              rest.2.1, rest.2.2)
        else ([Ev.connect, Ev.q1 0, Ev.q2 0], [], some DevErr.startLedFail)
      else ([Ev.connect, Ev.q1 0], [], some DevErr.startQ2Fail)
    else ([Ev.connect], [], some DevErr.startQ1Fail)
  else ([], [], some DevErr.connectFail)

/-- The cleanup block (lines 138–143): when `lab` was bound, try
`lab.Q1(0)` then `lab.close()` inside one bare `except: pass`.  A raising
`lab.Q1(0)` skips the close; every failure is swallowed. -/
def drainTrace (dev : Device) : List Ev :=
  if dev.drainQ1Ok then
    if dev.closeOk then [Ev.q1 0, Ev.close] else [Ev.q1 0]
  else []

/-- Result of one call of `run_pi_controller`: the device-operation trace,
the completed log rows, and the exception printed by the `except` handler
(`none` when the run completed cleanly). -/
structure RunResult where
  trace : List Ev
  samples : List Sample
  reported : Option DevErr
deriving DecidableEq, Repr

/-- `run_pi_controller` (lines 6–147): the `try` body, the catch-all
`except Exception` that prints the error, and the `finally` drain, which
runs exactly when `lab` is not `None`, i.e. when the connection succeeded. -/
def run_pi_controller (dev : Device) (duration T_sp Kp Ki : ℚ) : RunResult :=
  let body := tryBody dev duration T_sp Kp Ki
  if dev.connectOk then ⟨body.1 ++ drainTrace dev, body.2.1, body.2.2⟩
  else ⟨body.1, body.2.1, body.2.2⟩

/-- Number of `q1` (heater command) events in a trace. -/
def countQ1 (tr : List Ev) : ℕ :=
  (tr.filter fun e => match e with | Ev.q1 _ => true | _ => false).length

/-- Number of successful `readT1` (sensor read) events in a trace. -/
def countRead (tr : List Ev) : ℕ :=
  (tr.filter fun e => match e with | Ev.readT1 => true | _ => false).length

/-- The power of the last heater command in a trace, if any. -/
def lastQ1 (tr : List Ev) : Option ℚ :=
  tr.reverse.findSome? fun e => match e with | Ev.q1 p => some p | _ => none

/-! ### Console input layer (lines 150–196)

Each prompt is a `while True: try ... except ValueError` loop.  An input
line is its list of characters.  Python's `float(...)` string parsing is an
external primitive, modelled by an abstract
`floatOf : List Char → Option ℚ` (`none` = `ValueError`).  One pass of a
loop body either returns a value (`done`, the `break`), prints and
re-prompts (`reprompt`, the `except ValueError`/`continue` paths), or lets
an uncaught exception terminate the program (`crash`). -/

/-- Outcome of one pass of an input-prompt loop body on one input line. -/
inductive PromptOutcome
  | done (v : ℚ)
  | reprompt
  | crash
deriving DecidableEq, Repr

/-- Duration prompt body (lines 155–164): parse a float, re-prompt on
`ValueError` and on non-positive values. -/
def durationStep (floatOf : List Char → Option ℚ) (s : List Char) : PromptOutcome :=
  match floatOf s with
  | none => PromptOutcome.reprompt
  | some v => if v ≤ 0 then PromptOutcome.reprompt else PromptOutcome.done v

/-- Setpoint prompt body (lines 167–173): parse a float, re-prompt on
`ValueError`. -/
def tspStep (floatOf : List Char → Option ℚ) (s : List Char) : PromptOutcome :=
  match floatOf s with
  | none => PromptOutcome.reprompt
  | some v => PromptOutcome.done v

/-- Kp prompt body (lines 176–182): parse a float, re-prompt on
`ValueError`. -/
def kpStep (floatOf : List Char → Option ℚ) (s : List Char) : PromptOutcome :=
  match floatOf s with
  | none => PromptOutcome.reprompt
  | some v => PromptOutcome.done v

/-- Python `s.split('/')`: split a character list at every `/`. -/
def splitSlash : List Char → List (List Char)
  | [] => [[]]
  | c :: cs =>
    if c = '/' then [] :: splitSlash cs
    else
      match splitSlash cs with
      | [] => [[c]]
      | p :: ps => (c :: p) :: ps

/-- Ki prompt body (lines 185–196).  When the input contains `/`, the code
runs `num, den = map(float, ki_input.split('/'))` — a split of length ≠ 2
or an unparseable part raises `ValueError` (caught, re-prompt) — and then
`ki_val = num / den`, whose `ZeroDivisionError` on a zero denominator is
NOT a `ValueError` and escapes the `except` clause, terminating the
program. -/
def kiStep (floatOf : List Char → Option ℚ) (s : List Char) : PromptOutcome :=
  if s.contains '/' then
    match splitSlash s with
    | [a, b] =>
      match floatOf a, floatOf b with
      | some num, some den =>
          if den = 0 then PromptOutcome.crash else PromptOutcome.done (num / den)
      | _, _ => PromptOutcome.reprompt
    | _ => PromptOutcome.reprompt
  else
    match floatOf s with
    | none => PromptOutcome.reprompt
    | some v => PromptOutcome.done v

/-- A concrete fragment of Python float parsing: nonempty all-digit strings
parse to their decimal value (`float("1") = 1.0`, `float("0") = 0.0`);
anything else is out of this fragment.  Used only to instantiate the
abstract `floatOf` on concrete inputs. -/
def digitsVal (s : List Char) : Option ℚ :=
  if s ≠ [] ∧ s.all Char.isDigit then
    some ((s.foldl (fun a c => 10 * a + (c.toNat - 48)) 0 : ℕ) : ℚ)
  else none

/-! ### The sleep at the cycle boundary (lines 122–126) -/

/-- The argument the script passes to `time.sleep` at the end of every
cycle: the constant `delta_t - 0.05`, compensating only for the fixed
`plt.pause(0.05)` render pause, regardless of how long sensing, computing
or rendering actually took. -/
def sleepArg : ℚ := delta_t - 1 / 20

/-- The sleep duration §5 of the spec describes: `samplePeriod` minus the
cycle's actual processing time, clamped to zero.  Stated from the spec's
words, for comparison with `sleepArg`. -/
def sleepArgSpec (procTime : ℚ) : ℚ := max 0 (delta_t - procTime)

/-! ### Concrete devices used to instantiate the run-level theorems -/

/-- A device on which every call succeeds and the sensor always reads
25 °C. -/
def goodDevice : Device :=
  ⟨true, true, true, true, some 25, fun _ => some 25, fun _ => true, true, true⟩

/-- A device on which everything succeeds except the cleanup call
`lab.Q1(0)`, which raises. -/
def failingDrainDevice : Device :=
  ⟨true, true, true, true, some 25, fun _ => some 25, fun _ => true, false, true⟩

/-- A device whose sensor read raises on cycle 1 (after a good cycle 0). -/
def readFailDevice : Device :=
  ⟨true, true, true, true, some 25, fun j => if j < 1 then some 25 else none,
    fun _ => true, true, true⟩

/-- Every call of the script up to cycle `n` of the loop succeeds on this
device. -/
def errorFree (dev : Device) (n : ℕ) : Prop :=
  dev.connectOk = true ∧ dev.startQ1Ok = true ∧ dev.startQ2Ok = true ∧
  dev.startLedOk = true ∧ dev.initT.isSome = true ∧
  ∀ i, i < n → (dev.temps i).isSome = true ∧ dev.loopQ1Ok i = true

instance (dev : Device) (n : ℕ) : Decidable (errorFree dev n) := by
  unfold errorFree
  infer_instance

/-! ### Helper lemmas -/

theorem npclip_le (x : ℚ) : npclip x 0 100 ≤ 100 := min_le_right _ _

theorem npclip_nonneg (x : ℚ) : 0 ≤ npclip x 0 100 :=
  le_min (le_max_right _ _) (by norm_num)

theorem piStep_fst_nonneg (Kp Ki T_sp ie T1 : ℚ) :
    0 ≤ (piStep Kp Ki T_sp ie T1).1 := by
  unfold piStep
  dsimp only
  split <;> exact npclip_nonneg _

theorem piStep_fst_le (Kp Ki T_sp ie T1 : ℚ) :
    (piStep Kp Ki T_sp ie T1).1 ≤ 100 := by
  unfold piStep
  dsimp only
  split <;> exact npclip_le _

theorem controlLoop_q1_bound (dev : Device) (T_sp Kp Ki : ℚ) :
    ∀ fuel i ie p, Ev.q1 p ∈ (controlLoop dev T_sp Kp Ki fuel i ie).1 →
      0 ≤ p ∧ p ≤ 100 := by
  intro fuel
  induction fuel with
  | zero => intro i ie p h; simp [controlLoop] at h
  | succ n ih =>
    intro i ie p h
    rw [controlLoop] at h
    rcases htemp : dev.temps i with _ | T1 <;> rw [htemp] at h
    · simp at h
    · dsimp only at h
      by_cases hq : dev.loopQ1Ok i
      · rw [if_pos hq] at h
        simp only [List.mem_cons] at h
        rcases h with h1 | h1 | h1
        · exact absurd h1 (by simp)
        · have hp : p = (piStep Kp Ki T_sp ie T1).1 := by
            injection h1
          subst hp
          exact ⟨piStep_fst_nonneg _ _ _ _ _, piStep_fst_le _ _ _ _ _⟩
        · exact ih (i + 1) _ p h1
      · rw [if_neg hq] at h
        simp at h

theorem controlLoop_sample_bound (dev : Device) (T_sp Kp Ki : ℚ) :
    ∀ fuel i ie s, s ∈ (controlLoop dev T_sp Kp Ki fuel i ie).2.1 →
      0 ≤ s.output ∧ s.output ≤ 100 := by
  intro fuel
  induction fuel with
  | zero => intro i ie s h; simp [controlLoop] at h
  | succ n ih =>
    intro i ie s h
    rw [controlLoop] at h
    rcases htemp : dev.temps i with _ | T1 <;> rw [htemp] at h
    · simp at h
    · dsimp only at h
      by_cases hq : dev.loopQ1Ok i
      · rw [if_pos hq] at h
        simp only [List.mem_cons] at h
        rcases h with h1 | h1
        · subst h1
          exact ⟨piStep_fst_nonneg _ _ _ _ _, piStep_fst_le _ _ _ _ _⟩
        · exact ih (i + 1) _ s h1
      · rw [if_neg hq] at h
        simp only [List.mem_cons, List.not_mem_nil, or_false] at h
        subst h
        exact ⟨piStep_fst_nonneg _ _ _ _ _, piStep_fst_le _ _ _ _ _⟩

theorem tryBody_q1_bound (dev : Device) (duration T_sp Kp Ki : ℚ) (p : ℚ)
    (h : Ev.q1 p ∈ (tryBody dev duration T_sp Kp Ki).1) : 0 ≤ p ∧ p ≤ 100 := by
  unfold tryBody at h
  by_cases hc : dev.connectOk
  case neg => rw [if_neg hc] at h; simp at h
  rw [if_pos hc] at h
  by_cases h1 : dev.startQ1Ok
  case neg => rw [if_neg h1] at h; simp at h
  rw [if_pos h1] at h
  by_cases h2 : dev.startQ2Ok
  case neg =>
    rw [if_neg h2] at h
    simp at h
    subst h
    exact ⟨le_refl 0, by norm_num⟩
  rw [if_pos h2] at h
  by_cases h3 : dev.startLedOk
  case neg =>
    rw [if_neg h3] at h
    simp at h
    subst h
    exact ⟨le_refl 0, by norm_num⟩
  rw [if_pos h3] at h
  rcases hinit : dev.initT with _ | T0 <;> rw [hinit] at h
  · simp at h
    subst h
    exact ⟨le_refl 0, by norm_num⟩
  · dsimp only at h
    simp only [List.mem_append, List.mem_cons, List.not_mem_nil, or_false] at h
    rcases h with (h1 | h1 | h1 | h1 | h1) | hmem
    · exact absurd h1 (by simp)
    · have hp : p = 0 := by injection h1
      subst hp
      exact ⟨le_refl 0, by norm_num⟩
    · exact absurd h1 (by simp)
    · exact absurd h1 (by simp)
    · exact absurd h1 (by simp)
    · exact controlLoop_q1_bound dev T_sp Kp Ki _ 0 0 p hmem

/-- C1: for every control run and every executed cycle, the heater output
commanded that cycle — every power ever passed to `lab.Q1`, and the `Q1[i]`
value logged in each completed sample, which is by construction the
`np.clip` of `OP = OP_bias + P_term + I_term` to `[0, 100]` — lies in the
closed interval `[0, 100]`. -/
theorem C1_output_always_clamped (dev : Device) (duration T_sp Kp Ki : ℚ) :
    (∀ p, Ev.q1 p ∈ (run_pi_controller dev duration T_sp Kp Ki).trace →
      0 ≤ p ∧ p ≤ 100) ∧
    (∀ s, s ∈ (run_pi_controller dev duration T_sp Kp Ki).samples →
      0 ≤ s.output ∧ s.output ≤ 100) := by
  constructor
  · intro p hp
    unfold run_pi_controller at hp
    dsimp only at hp
    split_ifs at hp with hc
    · dsimp only at hp
      rcases List.mem_append.mp hp with hbody | hdrain
      · exact tryBody_q1_bound dev duration T_sp Kp Ki p hbody
      · unfold drainTrace at hdrain
        split_ifs at hdrain
        · simp only [List.mem_cons, List.not_mem_nil, or_false] at hdrain
          rcases hdrain with h1 | h1
          · have hp0 : p = 0 := by injection h1
            subst hp0
            exact ⟨le_refl 0, by norm_num⟩
          · exact absurd h1 (by simp)
        · simp only [List.mem_cons, List.not_mem_nil, or_false] at hdrain
          have hp0 : p = 0 := by injection hdrain
          subst hp0
          exact ⟨le_refl 0, by norm_num⟩
        · simp at hdrain
    · exact tryBody_q1_bound dev duration T_sp Kp Ki p hp
  · intro s hs
    unfold run_pi_controller at hs
    dsimp only at hs
    have hs2 : s ∈ (tryBody dev duration T_sp Kp Ki).2.1 := by
      split_ifs at hs <;> exact hs
    unfold tryBody at hs2
    by_cases hc : dev.connectOk
    case neg => rw [if_neg hc] at hs2; simp at hs2
    rw [if_pos hc] at hs2
    by_cases h1 : dev.startQ1Ok
    case neg => rw [if_neg h1] at hs2; simp at hs2
    rw [if_pos h1] at hs2
    by_cases h2 : dev.startQ2Ok
    case neg => rw [if_neg h2] at hs2; simp at hs2
    rw [if_pos h2] at hs2
    by_cases h3 : dev.startLedOk
    case neg => rw [if_neg h3] at hs2; simp at hs2
    rw [if_pos h3] at hs2
    rcases hinit : dev.initT with _ | T0 <;> rw [hinit] at hs2
    · simp at hs2
    · exact controlLoop_sample_bound dev T_sp Kp Ki _ 0 0 s hs2

/-- Witness for C1 at a concrete run: the in-loop heater command `q1 10`
of `goodDevice` lies in `[0, 100]`. -/
theorem C1_output_always_clamped_witness : 0 ≤ (10 : ℚ) ∧ (10 : ℚ) ≤ 100 :=
  (C1_output_always_clamped goodDevice 4 30 2 0).1 10 (by decide)

/-- C2: whenever the clamped output of a cycle saturates — it is not
strictly inside `(0, 100)` — the integral error coming out of the cycle
equals the integral error going in: the candidate accumulation
`error * delta_t` is discarded. -/
theorem C2_antiwindup_freezes_integral (Kp Ki T_sp ie T1 : ℚ)
    (h : ¬(0 < (piStep Kp Ki T_sp ie T1).1 ∧ (piStep Kp Ki T_sp ie T1).1 < 100)) :
    (piStep Kp Ki T_sp ie T1).2 = ie := by
  unfold piStep at h ⊢
  dsimp only at h ⊢
  split_ifs at h ⊢ with hc
  · exact absurd hc h
  · ring

/-- Witness for C2: with `Kp = 50`, setpoint 30, measurement 20 (error 10)
the raw output `500 + 5·(ie+20)` clamps to 100 and the integral error stays
at its pre-step value 0. -/
theorem C2_antiwindup_freezes_integral_witness : (piStep 50 (1/2) 30 0 20).2 = 0 :=
  C2_antiwindup_freezes_integral 50 (1/2) 30 0 20 (by decide)

/-- C4: whenever the clamped output of a cycle is strictly inside
`(0, 100)`, the integral error coming out of the cycle equals the integral
error going in plus `error * delta_t`, exactly. -/
theorem C4_unsaturated_integral_accumulates (Kp Ki T_sp ie T1 : ℚ)
    (h0 : 0 < (piStep Kp Ki T_sp ie T1).1) (h100 : (piStep Kp Ki T_sp ie T1).1 < 100) :
    (piStep Kp Ki T_sp ie T1).2 = ie + (T_sp - T1) * delta_t := by
  unfold piStep at h0 h100 ⊢
  dsimp only at h0 h100 ⊢
  split_ifs with hc
  · rfl
  · rw [if_neg hc] at h0 h100
    exact absurd ⟨h0, h100⟩ hc

/-- Witness for C4 (the spec's Scenario B numbers): `Kp = 0`,
`Ki = 0.01`, setpoint 30, measurement 20, so the output `0.2` is strictly
inside `(0, 100)` and the integral error advances from 0 to
`0 + 10 · 2 = 20`. -/
theorem C4_unsaturated_integral_accumulates_witness :
    (piStep 0 (1/100) 30 0 20).2 = 0 + (30 - 20) * delta_t :=
  C4_unsaturated_integral_accumulates 0 (1/100) 30 0 20 (by decide) (by decide)

theorem pyInt_eq_floor (q : ℚ) (hq : 0 ≤ q) : pyInt q = ⌊q⌋ := by
  unfold pyInt
  rw [if_neg (not_lt.mpr hq), Rat.floor_def, Int.natCast_div,
    Int.toNat_of_nonneg (Rat.num_nonneg.mpr hq)]

theorem numCycles_cast (duration : ℚ) (hd : 0 < duration) :
    (numCycles duration : ℤ) = ⌊duration / delta_t⌋ := by
  have hnn : (0 : ℚ) ≤ duration / delta_t := by
    apply div_nonneg hd.le
    norm_num [delta_t]
  unfold numCycles
  rw [pyInt_eq_floor _ hnn, Int.toNat_of_nonneg (Int.floor_nonneg.mpr hnn)]

theorem controlLoop_complete (dev : Device) (T_sp Kp Ki : ℚ) :
    ∀ fuel i ie,
    (∀ j, j < fuel → (dev.temps (i + j)).isSome = true ∧ dev.loopQ1Ok (i + j) = true) →
    (controlLoop dev T_sp Kp Ki fuel i ie).2.2 = none ∧
    (controlLoop dev T_sp Kp Ki fuel i ie).2.1.map Sample.t
      = (List.range fuel).map (fun j : ℕ => ((i : ℚ) + (j : ℚ)) * delta_t) := by
  intro fuel
  induction fuel with
  | zero => intro i ie _; exact ⟨rfl, rfl⟩
  | succ n ih =>
    intro i ie h
    obtain ⟨hs0, hq0⟩ := h 0 (Nat.succ_pos n)
    rw [Nat.add_zero] at hs0 hq0
    obtain ⟨T1, hT1⟩ := Option.isSome_iff_exists.mp hs0
    have hrec := ih (i + 1) (piStep Kp Ki T_sp ie T1).2 (fun j hj => by
      have hjj := h (j + 1) (Nat.succ_lt_succ hj)
      rwa [show i + (j + 1) = i + 1 + j by omega] at hjj)
    rw [controlLoop, hT1]
    dsimp only
    rw [if_pos hq0]
    dsimp only
    refine ⟨hrec.1, ?_⟩
    rw [List.range_succ_eq_map, List.map_cons, List.map_cons, List.map_map,
      hrec.2]
    refine List.cons_eq_cons.mpr ⟨?_, ?_⟩
    · dsimp only
      push_cast
      ring
    · refine List.map_congr_left ?_
      intro a _
      dsimp only [Function.comp]
      push_cast
      ring

/-- C5: for every positive duration, an error-free run executes exactly
`n = int(duration / delta_t) = ⌊duration / 2.0⌋` cycles, completes with no
reported error, logs exactly `n` samples, and sample `i` carries the
timestamp `t[i] = i * delta_t`. -/
theorem C5_cycle_count_and_timestamps (dev : Device) (duration T_sp Kp Ki : ℚ)
    (hd : 0 < duration) (hfree : errorFree dev (numCycles duration)) :
    (run_pi_controller dev duration T_sp Kp Ki).reported = none ∧
    (run_pi_controller dev duration T_sp Kp Ki).samples.length = numCycles duration ∧
    (numCycles duration : ℤ) = ⌊duration / delta_t⌋ ∧
    (run_pi_controller dev duration T_sp Kp Ki).samples.map Sample.t
      = (List.range (numCycles duration)).map (fun i : ℕ => (i : ℚ) * delta_t) := by
  obtain ⟨hc, h1, h2, h3, h4, hloop⟩ := hfree
  obtain ⟨T0, hT0⟩ := Option.isSome_iff_exists.mp h4
  have hbody : tryBody dev duration T_sp Kp Ki
      = ([Ev.connect, Ev.q1 0, Ev.q2 0, Ev.led 100, Ev.readT1]
          ++ (controlLoop dev T_sp Kp Ki (numCycles duration) 0 0).1,
        (controlLoop dev T_sp Kp Ki (numCycles duration) 0 0).2.1,
        (controlLoop dev T_sp Kp Ki (numCycles duration) 0 0).2.2) := by
    unfold tryBody
    rw [if_pos hc, if_pos h1, if_pos h2, if_pos h3, hT0]
  have hcl := controlLoop_complete dev T_sp Kp Ki (numCycles duration) 0 0
    (fun j hj => by
      have hjj := hloop j hj
      rwa [Nat.zero_add])
  have hrun : run_pi_controller dev duration T_sp Kp Ki
      = ⟨(tryBody dev duration T_sp Kp Ki).1 ++ drainTrace dev,
         (tryBody dev duration T_sp Kp Ki).2.1,
         (tryBody dev duration T_sp Kp Ki).2.2⟩ := by
    unfold run_pi_controller
    rw [if_pos hc]
  rw [hrun, hbody]
  refine ⟨hcl.1, ?_, numCycles_cast duration hd, ?_⟩
  · have hlen := congrArg List.length hcl.2
    simpa using hlen
  · have := hcl.2
    simpa using this

/-- Witness for C5 at a concrete error-free run: duration 4 s gives
`numCycles 4 = 2` logged samples. -/
theorem C5_cycle_count_and_timestamps_witness :
    (run_pi_controller goodDevice 4 30 2 0).samples.length = numCycles 4 :=
  (C5_cycle_count_and_timestamps goodDevice 4 30 2 0 (by decide) (by decide)).2.1

theorem countQ1_append (a b : List Ev) :
    countQ1 (a ++ b) = countQ1 a + countQ1 b := by
  unfold countQ1
  rw [List.filter_append, List.length_append]

theorem countRead_append (a b : List Ev) :
    countRead (a ++ b) = countRead a + countRead b := by
  unfold countRead
  rw [List.filter_append, List.length_append]

theorem controlLoop_read_fails (dev : Device) (T_sp Kp Ki : ℚ) :
    ∀ k fuel i ie,
    (∀ j, j < k → (dev.temps (i + j)).isSome = true ∧ dev.loopQ1Ok (i + j) = true) →
    dev.temps (i + k) = none → k < fuel →
    (controlLoop dev T_sp Kp Ki fuel i ie).2.1.length = k ∧
    (controlLoop dev T_sp Kp Ki fuel i ie).2.2 = some (DevErr.readFail (i + k)) ∧
    countRead (controlLoop dev T_sp Kp Ki fuel i ie).1 = k ∧
    countQ1 (controlLoop dev T_sp Kp Ki fuel i ie).1 = k := by
  intro k
  induction k with
  | zero =>
    intro fuel i ie _ hfail hk
    obtain ⟨f, rfl⟩ : ∃ f, fuel = f + 1 := ⟨fuel - 1, by omega⟩
    rw [Nat.add_zero] at hfail
    rw [controlLoop, hfail]
    exact ⟨rfl, rfl, rfl, rfl⟩
  | succ m ih =>
    intro fuel i ie hgood hfail hk
    obtain ⟨f, rfl⟩ : ∃ f, fuel = f + 1 := ⟨fuel - 1, by omega⟩
    obtain ⟨hs0, hq0⟩ := hgood 0 (Nat.succ_pos m)
    rw [Nat.add_zero] at hs0 hq0
    obtain ⟨T1, hT1⟩ := Option.isSome_iff_exists.mp hs0
    have hidx : i + (m + 1) = i + 1 + m := by omega
    have hrec := ih f (i + 1) (piStep Kp Ki T_sp ie T1).2
      (fun j hj => by
        have hjj := hgood (j + 1) (Nat.succ_lt_succ hj)
        rwa [show i + (j + 1) = i + 1 + j by omega] at hjj)
      (by rw [← hidx]; exact hfail)
      (by omega)
    rw [controlLoop, hT1]
    dsimp only
    rw [if_pos hq0]
    dsimp only
    refine ⟨?_, ?_, ?_, ?_⟩
    · simp [hrec.1]
    · rw [hidx, hrec.2.1]
    · rw [show (Ev.readT1 :: Ev.q1 (piStep Kp Ki T_sp ie T1).1
          :: (controlLoop dev T_sp Kp Ki f (i + 1) (piStep Kp Ki T_sp ie T1).2).1)
          = [Ev.readT1, Ev.q1 (piStep Kp Ki T_sp ie T1).1]
            ++ (controlLoop dev T_sp Kp Ki f (i + 1) (piStep Kp Ki T_sp ie T1).2).1
          from rfl, countRead_append, hrec.2.2.1,
        show countRead [Ev.readT1, Ev.q1 (piStep Kp Ki T_sp ie T1).1] = 1 from rfl]
      omega
    · rw [show (Ev.readT1 :: Ev.q1 (piStep Kp Ki T_sp ie T1).1
          :: (controlLoop dev T_sp Kp Ki f (i + 1) (piStep Kp Ki T_sp ie T1).2).1)
          = [Ev.readT1, Ev.q1 (piStep Kp Ki T_sp ie T1).1]
            ++ (controlLoop dev T_sp Kp Ki f (i + 1) (piStep Kp Ki T_sp ie T1).2).1
          from rfl, countQ1_append, hrec.2.2.2,
        show countQ1 [Ev.readT1, Ev.q1 (piStep Kp Ki T_sp ie T1).1] = 1 from rfl]
      omega

/-- C6: if the sensor read raises on cycle `i` of an `n`-cycle run (all
earlier cycles clean), the loop stops at cycle `i`: exactly `i` complete
samples exist, the reported error is the cycle-`i` read failure, only the
initial read plus `i` loop reads ever succeeded, the only heater commands
are the startup zero, the `i` loop commands and the drain's force-to-zero
(`i + 2` in all), and the run still ends with the drain's `Q1(0)` followed
by `close`. -/
theorem C6_sensor_failure_aborts_run (dev : Device) (duration T_sp Kp Ki : ℚ) (i : ℕ)
    (hc : dev.connectOk = true) (h1 : dev.startQ1Ok = true) (h2 : dev.startQ2Ok = true)
    (h3 : dev.startLedOk = true) (h4 : dev.initT.isSome = true)
    (hgood : ∀ j, j < i → (dev.temps j).isSome = true ∧ dev.loopQ1Ok j = true)
    (hfail : dev.temps i = none) (hin : i < numCycles duration)
    (hdq : dev.drainQ1Ok = true) (hclose : dev.closeOk = true) :
    (run_pi_controller dev duration T_sp Kp Ki).samples.length = i ∧
    (run_pi_controller dev duration T_sp Kp Ki).reported = some (DevErr.readFail i) ∧
    countRead (run_pi_controller dev duration T_sp Kp Ki).trace = i + 1 ∧
    countQ1 (run_pi_controller dev duration T_sp Kp Ki).trace = i + 2 ∧
    ∃ pre, (run_pi_controller dev duration T_sp Kp Ki).trace
      = pre ++ [Ev.q1 0, Ev.close] := by
  obtain ⟨T0, hT0⟩ := Option.isSome_iff_exists.mp h4
  have hbody : tryBody dev duration T_sp Kp Ki
      = ([Ev.connect, Ev.q1 0, Ev.q2 0, Ev.led 100, Ev.readT1]
          ++ (controlLoop dev T_sp Kp Ki (numCycles duration) 0 0).1,
        (controlLoop dev T_sp Kp Ki (numCycles duration) 0 0).2.1,
        (controlLoop dev T_sp Kp Ki (numCycles duration) 0 0).2.2) := by
    unfold tryBody
    rw [if_pos hc, if_pos h1, if_pos h2, if_pos h3, hT0]
  have hcl := controlLoop_read_fails dev T_sp Kp Ki i (numCycles duration) 0 0
    (fun j hj => by
      have hjj := hgood j hj
      rwa [Nat.zero_add])
    (by rwa [Nat.zero_add]) hin
  have hdrain : drainTrace dev = [Ev.q1 0, Ev.close] := by
    unfold drainTrace
    rw [if_pos hdq, if_pos hclose]
  have hrun : run_pi_controller dev duration T_sp Kp Ki
      = ⟨(tryBody dev duration T_sp Kp Ki).1 ++ drainTrace dev,
         (tryBody dev duration T_sp Kp Ki).2.1,
         (tryBody dev duration T_sp Kp Ki).2.2⟩ := by
    unfold run_pi_controller
    rw [if_pos hc]
  rw [hrun, hbody, hdrain]
  rw [Nat.zero_add] at hcl
  refine ⟨hcl.1, hcl.2.1, ?_, ?_, ?_⟩
  · dsimp only
    rw [countRead_append, countRead_append, hcl.2.2.1,
      show countRead [Ev.connect, Ev.q1 0, Ev.q2 0, Ev.led 100, Ev.readT1] = 1 from rfl,
      show countRead [Ev.q1 0, Ev.close] = 0 from rfl]
    omega
  · dsimp only
    rw [countQ1_append, countQ1_append, hcl.2.2.2,
      show countQ1 [Ev.connect, Ev.q1 0, Ev.q2 0, Ev.led 100, Ev.readT1] = 1 from rfl,
      show countQ1 [Ev.q1 0, Ev.close] = 1 from rfl]
    omega
  · exact ⟨[Ev.connect, Ev.q1 0, Ev.q2 0, Ev.led 100, Ev.readT1]
      ++ (controlLoop dev T_sp Kp Ki (numCycles duration) 0 0).1, rfl⟩

/-- Witness for C6: on `readFailDevice` (read of cycle 1 raises) with
duration 4 s (2 cycles), the run logs exactly one complete sample. -/
theorem C6_sensor_failure_aborts_run_witness :
    (run_pi_controller readFailDevice 4 30 2 0).samples.length = 1 :=
  (C6_sensor_failure_aborts_run readFailDevice 4 30 2 0 1 rfl rfl rfl rfl rfl
    (by decide) (by decide) (by decide) rfl rfl).1

theorem run_eq_of_connect (dev : Device) (duration T_sp Kp Ki : ℚ)
    (hc : dev.connectOk = true) :
    run_pi_controller dev duration T_sp Kp Ki
      = ⟨(tryBody dev duration T_sp Kp Ki).1 ++ drainTrace dev,
         (tryBody dev duration T_sp Kp Ki).2.1,
         (tryBody dev duration T_sp Kp Ki).2.2⟩ := by
  unfold run_pi_controller
  rw [if_pos hc]

theorem run_eq_of_no_connect (dev : Device) (duration T_sp Kp Ki : ℚ)
    (hc : dev.connectOk = false) :
    run_pi_controller dev duration T_sp Kp Ki
      = ⟨(tryBody dev duration T_sp Kp Ki).1,
         (tryBody dev duration T_sp Kp Ki).2.1,
         (tryBody dev duration T_sp Kp Ki).2.2⟩ := by
  unfold run_pi_controller
  rw [if_neg (by rw [hc]; exact Bool.false_ne_true)]

theorem lastQ1_append_q1_close (l : List Ev) :
    lastQ1 (l ++ [Ev.q1 0, Ev.close]) = some 0 := by
  unfold lastQ1
  rw [List.reverse_append]
  rfl

theorem close_not_in_controlLoop (dev : Device) (T_sp Kp Ki : ℚ) :
    ∀ fuel i ie, Ev.close ∉ (controlLoop dev T_sp Kp Ki fuel i ie).1 := by
  intro fuel
  induction fuel with
  | zero => intro i ie h; simp [controlLoop] at h
  | succ n ih =>
    intro i ie h
    rw [controlLoop] at h
    rcases htemp : dev.temps i with _ | T1 <;> rw [htemp] at h
    · simp at h
    · dsimp only at h
      by_cases hq : dev.loopQ1Ok i
      · rw [if_pos hq] at h
        simp only [List.mem_cons] at h
        rcases h with h1 | h1 | h1
        · exact absurd h1 (by simp)
        · exact absurd h1 (by simp)
        · exact ih (i + 1) _ h1
      · rw [if_neg hq] at h
        simp at h

theorem close_not_in_tryBody (dev : Device) (duration T_sp Kp Ki : ℚ) :
    Ev.close ∉ (tryBody dev duration T_sp Kp Ki).1 := by
  intro h
  unfold tryBody at h
  by_cases hc : dev.connectOk
  case neg => rw [if_neg hc] at h; simp at h
  rw [if_pos hc] at h
  by_cases h1 : dev.startQ1Ok
  case neg => rw [if_neg h1] at h; simp at h
  rw [if_pos h1] at h
  by_cases h2 : dev.startQ2Ok
  case neg => rw [if_neg h2] at h; simp at h
  rw [if_pos h2] at h
  by_cases h3 : dev.startLedOk
  case neg => rw [if_neg h3] at h; simp at h
  rw [if_pos h3] at h
  rcases hinit : dev.initT with _ | T0 <;> rw [hinit] at h
  · simp at h
  · dsimp only at h
    rcases List.mem_append.mp h with h4 | h4
    · simp at h4
    · exact close_not_in_controlLoop dev T_sp Kp Ki _ 0 0 h4

/-- C3 counterexample: on a device where everything succeeds except the
cleanup `lab.Q1(0)` (which raises), a 1-cycle run with `Kp = 2` commands a
nonzero heater power (10) in the loop but the drain's `Q1(0)` raise makes
the bare `except: pass` skip `lab.close()`; the run ends with no `close`
event and the last commanded heater power 10, not 0 — so "actuator forced
to 0 and connection closed on every exit path" fails on this exit path. -/
theorem C3_counterexample_drain_q1_raises :
    ¬ (Ev.close ∈ (run_pi_controller failingDrainDevice 2 30 2 0).trace ∧
       lastQ1 (run_pi_controller failingDrainDevice 2 30 2 0).trace = some 0) := by
  decide

/-- C3 amended: on every exit path of a run whose connection succeeded and
whose two drain calls `lab.Q1(0)` and `lab.close()` do not themselves
raise, the run ends with the actuator forced to 0 followed by the
connection close: the trace ends in `[q1 0, close]`, the last heater
command is 0, and a close event occurs.  (When the connection fails there
is nothing to drain, and when the drain's own force-to-zero raises, the
close is skipped — see C9.) -/
theorem C3_drain_on_clean_cleanup_amended (dev : Device) (duration T_sp Kp Ki : ℚ)
    (hc : dev.connectOk = true) (hdq : dev.drainQ1Ok = true)
    (hclose : dev.closeOk = true) :
    (∃ pre, (run_pi_controller dev duration T_sp Kp Ki).trace
        = pre ++ [Ev.q1 0, Ev.close]) ∧
    lastQ1 (run_pi_controller dev duration T_sp Kp Ki).trace = some 0 ∧
    Ev.close ∈ (run_pi_controller dev duration T_sp Kp Ki).trace := by
  have hdrain : drainTrace dev = [Ev.q1 0, Ev.close] := by
    unfold drainTrace
    rw [if_pos hdq, if_pos hclose]
  have htr : (run_pi_controller dev duration T_sp Kp Ki).trace
      = (tryBody dev duration T_sp Kp Ki).1 ++ [Ev.q1 0, Ev.close] := by
    rw [run_eq_of_connect dev duration T_sp Kp Ki hc]
    dsimp only
    rw [hdrain]
  refine ⟨⟨(tryBody dev duration T_sp Kp Ki).1, htr⟩, ?_, ?_⟩
  · rw [htr]
    exact lastQ1_append_q1_close _
  · rw [htr]
    simp

/-- Witness for the amended C3 on a concrete clean run: the last heater
command of the `goodDevice` run is 0. -/
theorem C3_drain_on_clean_cleanup_amended_witness :
    lastQ1 (run_pi_controller goodDevice 4 30 2 0).trace = some 0 :=
  (C3_drain_on_clean_cleanup_amended goodDevice 4 30 2 0 rfl rfl rfl).2.1

/-- C9: when the connection succeeded but the cleanup call `lab.Q1(0)`
raises, `lab.close()` is never invoked — no close event appears in the
trace — and the failure is silently swallowed: the reported outcome is
exactly the try-body's outcome, unchanged by the drain failure. -/
theorem C9_drain_failure_skips_close (dev : Device) (duration T_sp Kp Ki : ℚ)
    (hc : dev.connectOk = true) (hdq : dev.drainQ1Ok = false) :
    Ev.close ∉ (run_pi_controller dev duration T_sp Kp Ki).trace ∧
    (run_pi_controller dev duration T_sp Kp Ki).reported
      = (tryBody dev duration T_sp Kp Ki).2.2 := by
  have hdrain : drainTrace dev = [] := by
    unfold drainTrace
    rw [hdq]
    rfl
  rw [run_eq_of_connect dev duration T_sp Kp Ki hc]
  dsimp only
  rw [hdrain, List.append_nil]
  exact ⟨close_not_in_tryBody dev duration T_sp Kp Ki, rfl⟩

/-- Witness for C9: on `failingDrainDevice` no close event ever happens. -/
theorem C9_drain_failure_skips_close_witness :
    Ev.close ∉ (run_pi_controller failingDrainDevice 2 30 2 0).trace :=
  (C9_drain_failure_skips_close failingDrainDevice 2 30 2 0 rfl rfl).1

/-- C10: `run_pi_controller` never propagates an exception: whatever
exception the try body raises is the one reported by the catch-all
`except Exception` handler (the function's result is always a well-defined
`RunResult`), and when the connection had succeeded the cleanup block still
runs after the error, appending the drain events to the trace. -/
theorem C10_body_errors_always_caught (dev : Device) (duration T_sp Kp Ki : ℚ)
    (e : DevErr) (h : (tryBody dev duration T_sp Kp Ki).2.2 = some e) :
    (run_pi_controller dev duration T_sp Kp Ki).reported = some e ∧
    (dev.connectOk = true →
      (run_pi_controller dev duration T_sp Kp Ki).trace
        = (tryBody dev duration T_sp Kp Ki).1 ++ drainTrace dev) := by
  cases hc : dev.connectOk
  · rw [run_eq_of_no_connect dev duration T_sp Kp Ki hc]
    exact ⟨h, fun hcontra => absurd hcontra Bool.false_ne_true⟩
  · rw [run_eq_of_connect dev duration T_sp Kp Ki hc]
    exact ⟨h, fun _ => rfl⟩

/-- Witness for C10: the cycle-1 read failure of `readFailDevice` is caught
and reported, not propagated. -/
theorem C10_body_errors_always_caught_witness :
    (run_pi_controller readFailDevice 4 30 2 0).reported
      = some (DevErr.readFail 1) :=
  (C10_body_errors_always_caught readFailDevice 4 30 2 0 (DevErr.readFail 1)
    (by decide)).1

/-- C7 counterexample: in a cycle whose sensing/computing/rendering takes
1 s, the claimed formula `max 0 (samplePeriod - processingTime)` demands a
1 s sleep, but the script always passes the constant
`delta_t - 0.05 = 1.95` to `time.sleep`, regardless of processing time. -/
theorem C7_counterexample_sleep_ignores_processing :
    sleepArg ≠ sleepArgSpec 1 := by decide

/-- C7 amended: the duration passed to `time.sleep` at the end of every
cycle is the fixed constant `delta_t - 0.05 = 1.95` s — it compensates only
for the hard-coded `plt.pause(0.05)` and is independent of the actual
processing time (no measurement, no clamping is performed); being a
positive constant it happens never to be negative, and it agrees with the
spec's clamped formula only when the processing time is exactly 0.05 s. -/
theorem C7_sleep_is_fixed_constant_amended (procTime : ℚ) :
    sleepArg = 39 / 20 ∧ 0 < sleepArg ∧
    (sleepArg = sleepArgSpec procTime ↔ procTime = 1 / 20) := by
  refine ⟨by norm_num [sleepArg, delta_t], by norm_num [sleepArg, delta_t], ?_⟩
  unfold sleepArg sleepArgSpec delta_t
  constructor
  · intro h
    rcases max_eq_iff.mp h.symm with ⟨h1, _⟩ | ⟨h1, _⟩
    · norm_num at h1
    · linarith
  · intro h
    subst h
    rw [max_eq_right] <;> norm_num

/-- Witness for the amended C7 at the concrete processing time 1 s. -/
theorem C7_sleep_is_fixed_constant_amended_witness : sleepArg = 39 / 20 :=
  (C7_sleep_is_fixed_constant_amended 1).1

/-- C8 counterexample: the Ki prompt input `"1/0"` parses both parts as
floats, so no `ValueError` is raised; the division `1.0 / 0.0` then raises
`ZeroDivisionError`, which the `except ValueError` clause does not catch —
the program terminates instead of re-prompting. -/
theorem C8_counterexample_zero_division_terminates :
    kiStep digitsVal ['1', '/', '0'] = PromptOutcome.crash ∧
    PromptOutcome.crash ≠ PromptOutcome.reprompt := by decide

/-- C8 amended: the duration, setpoint and Kp prompts never terminate the
program — they re-prompt on every parse failure, and the duration prompt
returns only positive values; the Ki prompt returns the quotient `a/b` for
a division input whose two parts parse and whose denominator is nonzero,
but the only way it can terminate the program is a division input whose
denominator parses to zero (the uncaught `ZeroDivisionError`); every other
invalid input re-prompts. -/
theorem C8_reprompt_amended (floatOf : List Char → Option ℚ) (s : List Char) :
    durationStep floatOf s ≠ PromptOutcome.crash ∧
    (∀ v, durationStep floatOf s = PromptOutcome.done v → 0 < v) ∧
    tspStep floatOf s ≠ PromptOutcome.crash ∧
    kpStep floatOf s ≠ PromptOutcome.crash ∧
    (∀ a b num den, splitSlash s = [a, b] → s.contains '/' = true →
      floatOf a = some num → floatOf b = some den → den ≠ 0 →
      kiStep floatOf s = PromptOutcome.done (num / den)) ∧
    (kiStep floatOf s = PromptOutcome.crash →
      ∃ a b num, splitSlash s = [a, b] ∧ floatOf a = some num ∧
        floatOf b = some 0) := by
  refine ⟨?_, ?_, ?_, ?_, ?_, ?_⟩
  · unfold durationStep
    rcases floatOf s with _ | v
    · simp
    · dsimp only
      split_ifs <;> simp
  · intro v hv
    unfold durationStep at hv
    rcases hfs : floatOf s with _ | w
    · rw [hfs] at hv
      simp at hv
    · rw [hfs] at hv
      dsimp only at hv
      by_cases hw : w ≤ 0
      · rw [if_pos hw] at hv
        simp at hv
      · rw [if_neg hw] at hv
        have hvw : w = v := by injection hv
        push_neg at hw
        exact hvw ▸ hw
  · unfold tspStep
    rcases floatOf s with _ | v <;> simp
  · unfold kpStep
    rcases floatOf s with _ | v <;> simp
  · intro a b num den hsplit hslash hnum hden hdne
    unfold kiStep
    rw [if_pos hslash, hsplit]
    try dsimp only
    rw [hnum, hden]
    try dsimp only
    rw [if_neg hdne]
  · intro h
    unfold kiStep at h
    by_cases hslash : s.contains '/'
    · rw [if_pos hslash] at h
      rcases hsplit : splitSlash s with _ | ⟨a, _ | ⟨b, _ | ⟨c, rest⟩⟩⟩
      · rw [hsplit] at h
        simp at h
      · rw [hsplit] at h
        simp at h
      · rw [hsplit] at h
        dsimp only at h
        rcases hna : floatOf a with _ | num
        · rw [hna] at h
          simp at h
        · rw [hna] at h
          rcases hnb : floatOf b with _ | den
          · rw [hnb] at h
            simp at h
          · rw [hnb] at h
            dsimp only at h
            by_cases hd0 : den = 0
            · subst hd0
              exact ⟨a, b, num, rfl, hna, hnb⟩
            · rw [if_neg hd0] at h
              simp at h
      · rw [hsplit] at h
        simp at h
    · rw [if_neg hslash] at h
      rcases hfs : floatOf s with _ | v
      · rw [hfs] at h
        simp at h
      · rw [hfs] at h
        simp at h

/-- Witness for the amended C8: the Ki input `"4/150"` yields the quotient
`4 / 150`. -/
theorem C8_reprompt_amended_witness :
    kiStep digitsVal ['4', '/', '1', '5', '0'] = PromptOutcome.done (4 / 150) :=
  (C8_reprompt_amended digitsVal ['4', '/', '1', '5', '0']).2.2.2.2.1
    ['4'] ['1', '5', '0'] 4 150 (by decide) (by decide) (by decide) (by decide)
    (by decide)

end TCLab
